import Mathlib

/-!
Shallow embedding of `src/packages/pdf-annotator/src/state/pdfStore.ts`.

The module is an adapter over a generic text-annotation store:
a target "reviver" (`reviveSelector`, `reviveTarget`, `revive`) and a
per-page index of annotations (`rendered`) maintained by intercepted
store operations, plus the `onLazyRender` resync callback.

Naming note: source identifiers ending in `Annotation(s)` are shortened
to `Annot(s)` here (e.g. `PDFAnnotation` becomes `PDFAnnot`,
`bulkAddAnnotation` becomes `bulkAddAnnot`, the target field
`annotation` becomes `annot`); everything else keeps the source name.

Modelling conventions:
- JS numbers used as page numbers are modelled as `Int` (they are
  produced by integer arithmetic and `parseInt`).
- A DOM element is modelled as `Elem`: its `isConnected` flag and its
  `dataset.pageNumber` attribute (already parsed to an integer).  Every
  `Elem` counts as an `instanceof HTMLElement` value; the field value
  `null` (what `document.querySelector` returns on a miss) is the
  separate constructor `RefVal.nullRef`.
- An absent object field is `Option.none`; a field that is present but
  holds `null` is `some RefVal.nullRef`.
- `document.querySelector(".page[data-page-number=...]")` is the
  injected lookup `DocView : Int → Option Elem`.
- `console.warn` is modelled by the `Bool` component of
  `reviveSelectorW`; the function is total, matching the fact that the
  source never throws on this path.
-/

/-- A rendered page-container DOM element: its `isConnected` status and
its `data-page-number` attribute (as parsed by `parseInt`). -/
structure Elem where
  connected : Bool
  dataPageNumber : Int
deriving DecidableEq

/-- The runtime value stored in a selector's `offsetReference` field when
the field is present: either `null` (not an `HTMLElement`) or an element. -/
inductive RefVal where
  | nullRef : RefVal
  | elem : Elem → RefVal
deriving DecidableEq

/-- A `PDFSelector` / `TextSelector`: `pageNumber` and `offsetReference`
may each be absent (`none`).  `quote` stands for the remaining
text-selector payload fields, which the adapter never inspects and
always copies through object spread. -/
structure PDFSelector where
  pageNumber : Option Int
  offsetReference : Option RefVal
  quote : String
deriving DecidableEq

/-- A `PDFAnnotationTarget`: the id of the owning annotation (source
field name `annotation`, here `annot`) and the selector list. -/
structure PDFTarget where
  annot : String
  selector : List PDFSelector
deriving DecidableEq

/-- A `PDFAnnotation` (here `PDFAnnot`): stable id plus target. -/
structure PDFAnnot where
  id : String
  target : PDFTarget
deriving DecidableEq

/-- The `Origin` enumeration of the wrapped store. -/
inductive Origin where
  | LOCAL : Origin
  | REMOTE : Origin
deriving DecidableEq

/-- The page-to-element lookup over the currently rendered document view:
`document.querySelector(".page[data-page-number=p]")`, returning the
rendered container element for page `p` or `none` (JS `null`). -/
def DocView : Type := Int → Option Elem

/-- `reviveSelector` (pdfStore.ts lines 29-61), instrumented with a
`Bool` that is `true` exactly when the source hits its
`console.warn('Invalid PDF selector', selector)` branch.

`hasValidOffsetReference` in the source is
`'offsetReference' in selector && selector.offsetReference instanceof HTMLElement`,
i.e. the field is present and holds an element (`some (RefVal.elem e)`).
The source checks nothing else about the element — in particular not
`isConnected`. -/
def reviveSelectorW (doc : DocView) (selector : PDFSelector) :
    PDFSelector × Bool :=
  match selector.offsetReference, selector.pageNumber with
  | some ( RefVal.elem _), some _ =>
      -- Already a PDF selector - doesn't need reviving
      (selector, false)
  | some ( RefVal.elem e), none =>
      -- No pageNumber, but offsetReference element -> crosswalk
      ({ selector with pageNumber := some e.dataPageNumber }, false)
  | _, some p =>
      -- pageNumber present, no (valid) offsetReference: DOM lookup
      ({ selector with
          offsetReference := some (match doc p with
            | some e => RefVal.elem e
            | none => RefVal.nullRef) }, false)
  | _, none =>
      -- Has neither - shouldn't happen: console.warn, return unchanged
      (selector, true)

/-- The selector returned by `reviveSelector` (warning log dropped). -/
def reviveSelector (doc : DocView) (selector : PDFSelector) : PDFSelector :=
  (reviveSelectorW doc selector).1

/-- `reviveTarget` (pdfStore.ts lines 24-27). -/
def reviveTarget (doc : DocView) (target : PDFTarget) : PDFTarget :=
  { target with selector := target.selector.map (reviveSelector doc) }

/-- `revive` (pdfStore.ts lines 64-67). -/
def revive (doc : DocView) (a : PDFAnnot) : PDFAnnot :=
  { a with target := reviveTarget doc a.target }

/-!
The per-page index.  The source keeps
`const rendered: Map<number, PDFAnnotation[]> = new Map()` and reads it
with `rendered.get(p) || []`.  We model it as a total function from keys
to lists, `[]` being the default for missing keys.  The key type is
`Option Int` because the source reads `s.pageNumber` off selectors with
a plain member access: on a selector whose `pageNumber` field is absent
this yields `undefined`, which JS `Map`s accept as a key — that key is
`none` here, ordinary pages are `some p`.
-/

/-- The `rendered` map: page key (`none` = JS `undefined`) to the list
of annotations indexed under that page. -/
def Rendered : Type := Option Int → List PDFAnnot

/-- The initial, empty `rendered` map. -/
def emptyRendered : Rendered := fun _ => []

/-- `rendered.set(p, l)`. -/
def setPage (r : Rendered) (p : Option Int) (l : List PDFAnnot) : Rendered :=
  fun q => if q = p then l else r q

/-- `target.selector.map(s => s.pageNumber)`, the list of page keys a
target touches (as in lines 85 and 99 of the source). -/
def targetPages (t : PDFTarget) : List (Option Int) :=
  t.selector.map (fun s => s.pageNumber)

/-- Common shape of the two index mutators: for each page key in `ps`
(in order), replace the current list under that key by `g` of it.  This
is the `pages.forEach(p => ... rendered.set(p, next))` loop of the
source, with `next = g(rendered.get(p) || [])`. -/
def mapPages (g : List PDFAnnot → List PDFAnnot) (ps : List (Option Int))
    (r : Rendered) : Rendered :=
  ps.foldl (fun acc p => setPage acc p (g (acc p))) r

/-- `upsertRenderedAnnotation` (pdfStore.ts lines 84-96): under every
page of the annotation's target, drop any prior entry with the same id
and append the annotation. -/
def upsertRenderedAnnot (a : PDFAnnot) (r : Rendered) : Rendered :=
  mapPages (fun current => current.filter (fun x => x.id ≠ a.id) ++ [a])
    (targetPages a.target) r

/-- `updateRenderedTarget` (pdfStore.ts lines 98-110): under every page
of the new target, map entries in place, swapping in the new target on
the entry whose id is the target's owning-annotation id. -/
def updateRenderedTarget (t : PDFTarget) (r : Rendered) : Rendered :=
  mapPages
    (fun current => current.map (fun a =>
      if a.id = t.annot then { a with target := t } else a))
    (targetPages t) r

/-!
The wrapped store (`@recogito/text-annotator`, external to this
repository) is consumed through the fixed capability surface of spec §6.
It is modelled parametrically: an abstract state type `σ` and one pure
state-passing function per consumed method.  `bulkUpsertAnnots` takes
`List (Option PDFAnnot)` because the adapter's call site (line 163) can
pass `undefined` entries — the TS annotation `PDFAnnotation[]` there is
the result of an unchecked `.map(({id}) => store.getAnnotation(id))`.
-/

/-- The capability surface of the wrapped text-annotation store. -/
structure WrappedStore (σ : Type) where
  addAnnot : PDFAnnot → Origin → σ → Bool × σ
  bulkAddAnnot : List PDFAnnot → Bool → Origin → σ → List PDFAnnot × σ
  updateAnnot : PDFAnnot → Origin → σ → σ
  updateTarget : PDFTarget → Origin → σ → σ
  getAnnot : String → σ → Option PDFAnnot
  bulkUpsertAnnots : List (Option PDFAnnot) → Origin → σ → σ

/-- Intercepted `store.addAnnotation` (pdfStore.ts lines 113-122):
revive, delegate, upsert the revived annotation into the index, return
the store's success value.  Adapter state is `σ × Rendered`. -/
def pdf_addAnnot {σ : Type} (doc : DocView) (S : WrappedStore σ)
    (a : PDFAnnot) (origin : Origin) (sr : σ × Rendered) :
    Bool × (σ × Rendered) :=
  let revived := revive doc a
  let res := S.addAnnot revived origin sr.1
  (res.1, (res.2, upsertRenderedAnnot revived sr.2))

/-- Intercepted `store.bulkAddAnnotation` (pdfStore.ts lines 124-136):
revive all, delegate, upsert every revived annotation into the index
(regardless of the store's per-item outcome), return the store's
`failed` list. -/
def pdf_bulkAddAnnot {σ : Type} (doc : DocView) (S : WrappedStore σ)
    (anns : List PDFAnnot) (replace : Bool) (origin : Origin)
    (sr : σ × Rendered) : List PDFAnnot × (σ × Rendered) :=
  let revived := anns.map (revive doc)
  let res := S.bulkAddAnnot revived replace origin sr.1
  (res.1, (res.2, revived.foldl (fun r a => upsertRenderedAnnot a r) sr.2))

/-- Intercepted `store.updateAnnotation` (pdfStore.ts lines 138-143). -/
def pdf_updateAnnot {σ : Type} (doc : DocView) (S : WrappedStore σ)
    (a : PDFAnnot) (origin : Origin) (sr : σ × Rendered) : σ × Rendered :=
  let revived := revive doc a
  (S.updateAnnot revived origin sr.1, upsertRenderedAnnot revived sr.2)

/-- Intercepted `store.updateTarget` (pdfStore.ts lines 145-150). -/
def pdf_updateTarget {σ : Type} (doc : DocView) (S : WrappedStore σ)
    (t : PDFTarget) (origin : Origin) (sr : σ × Rendered) : σ × Rendered :=
  let revived := reviveTarget doc t
  (S.updateTarget revived origin sr.1, updateRenderedTarget revived sr.2)

/-- The `pages` local of `onLazyRender` (pdfStore.ts line 155):
`[page - 2, page - 1, page, page + 1, page + 2].filter(n => n >= 0)`. -/
def lazyPages (page : Int) : List Int :=
  [page - 2, page - 1, page, page + 1, page + 2].filter (fun n => 0 ≤ n)

/-- The `pages.reduce(...)` accumulation of `onLazyRender` (lines
157-159 before the final `.map`): concatenate the index lists of the
neighborhood pages. -/
def lazyCollect (r : Rendered) (page : Int) : List PDFAnnot :=
  (lazyPages page).foldl (fun anns p => anns ++ r (some p)) []

/-- The `toRender` local of `onLazyRender` (lines 157-159): re-fetch
each collected annotation by id from the wrapped store.  Entries are
`Option` because `getAnnotation` can return `undefined`; the source
applies no filtering to the result. -/
def lazyToRender (get : String → Option PDFAnnot) (r : Rendered)
    (page : Int) : List (Option PDFAnnot) :=
  (lazyCollect r page).map (fun a => get a.id)

/-- `onLazyRender` (pdfStore.ts lines 153-164), instrumented to expose
its effect: `some batch` when `toRender.length > 0` and the source calls
`store.bulkUpsertAnnotations(batch, Origin.REMOTE)`, `none` when the
source performs no store call. -/
def onLazyRenderBatch (get : String → Option PDFAnnot) (r : Rendered)
    (page : Int) : Option (List (Option PDFAnnot)) :=
  if 0 < (lazyToRender get r page).length
  then some (lazyToRender get r page)
  else none

/-- `onLazyRender` as a transition on the adapter state `σ × Rendered`:
the batch (if any) is pushed into the wrapped store with
`Origin.REMOTE`; the `rendered` index itself is not written. -/
def pdf_onLazyRender {σ : Type} (S : WrappedStore σ) (page : Int)
    (sr : σ × Rendered) : σ × Rendered :=
  match onLazyRenderBatch (fun i => S.getAnnot i sr.1) sr.2 page with
  | some batch => (S.bulkUpsertAnnots batch Origin.REMOTE sr.1, sr.2)
  | none => sr

/-- The per-page uniqueness predicate: at most one entry per annotation
id in one page's index list. -/
def UniquePerId (l : List PDFAnnot) : Prop :=
  l.Pairwise (fun a b => a.id ≠ b.id)

/-- The index-wide invariant: every page's list is id-unique. -/
def IndexUnique (r : Rendered) : Prop :=
  ∀ p, UniquePerId (r p)

/-!
Concrete fixtures used by counterexamples and witnesses.
-/

/-- A document view with no rendered pages. -/
def doc0 : DocView := fun _ => none

/-- A trivial wrapped store over the unit state. -/
def SUnit : WrappedStore Unit where
  addAnnot := fun _ _ s => (true, s)
  bulkAddAnnot := fun _ _ _ s => ([], s)
  updateAnnot := fun _ _ s => s
  updateTarget := fun _ _ s => s
  getAnnot := fun _ _ => none
  bulkUpsertAnnots := fun _ _ s => s

/-- A wrapped store whose state is its list of annotations; `getAnnot`
resolves ids against that list. -/
def SListStore : WrappedStore (List PDFAnnot) where
  addAnnot := fun a _ st => (true, st ++ [a])
  bulkAddAnnot := fun anns _ _ st => ([], st ++ anns)
  updateAnnot := fun _ _ st => st
  updateTarget := fun _ _ st => st
  getAnnot := fun i st => st.find? (fun a => a.id = i)
  bulkUpsertAnnots := fun _ _ st => st

/-- A target of annotation id `"a"` touching page 0 only. -/
def tOld : PDFTarget := ⟨"a", [⟨some 0, none, "q"⟩]⟩

/-- A target of annotation id `"a"` touching page 5 only. -/
def tNew : PDFTarget := ⟨"a", [⟨some 5, none, "q"⟩]⟩

/-- Annotation `"a"` anchored on page 0. -/
def aOld : PDFAnnot := ⟨"a", tOld⟩

/-- Annotation `"a"` anchored on page 5 (a later version of `aOld`). -/
def aNew : PDFAnnot := ⟨"a", tNew⟩

/-- An index holding (a possibly stale) `aOld` under page 0. -/
def rStale : Rendered := fun k => if k = some 0 then [aOld] else []

/-- A two-page annotation anchored on pages 0 and 1. -/
def aMulti : PDFAnnot :=
  ⟨"m", ⟨"m", [⟨some 0, none, "q"⟩, ⟨some 1, none, "q"⟩]⟩⟩

/-- A store lookup resolving only `aMulti`. -/
def getM : String → Option PDFAnnot :=
  fun i => if i = "m" then some aMulti else none

/-- The index after upserting `aMulti` into the empty index. -/
def rMulti : Rendered := upsertRenderedAnnot aMulti emptyRendered

/-- A disconnected (stale) element claiming page 7. -/
def eStale : Elem := ⟨false, 7⟩

/-- A connected element for page 3. -/
def eFresh : Elem := ⟨true, 3⟩

/-- A document view currently rendering page 3 as `eFresh`. -/
def docC3 : DocView := fun p => if p = 3 then some eFresh else none

/-- A selector carrying page number 3 and a stale element reference. -/
def sStale : PDFSelector := ⟨some 3, some ( RefVal.elem eStale), "q"⟩

/-- The same selector carrying only the page number. -/
def sPageOnly : PDFSelector := ⟨some 3, none, "q"⟩

/-- A malformed selector carrying neither a page number nor an element
reference. -/
def sEmptySel : PDFSelector := ⟨none, none, "x"⟩

/-- An annotation anchored far outside the page-0 neighborhood. -/
def aFar : PDFAnnot := ⟨"f", ⟨"f", [⟨some 50, none, "q"⟩]⟩⟩

/-- An index holding `aFar` under page 50 only. -/
def rFar : Rendered := fun k => if k = some 50 then [aFar] else []

/-!
Helper lemmas about the index mutators and the lazy-render batch.
-/

theorem mapPages_apply (g : List PDFAnnot → List PDFAnnot)
    (hg : ∀ l, g (g l) = g l) :
    ∀ (ps : List (Option Int)) (r : Rendered) (p : Option Int),
      mapPages g ps r p = if p ∈ ps then g (r p) else r p := by
  intro ps
  induction ps with
  | nil => intro r p; simp [mapPages]
  | cons q ps ih =>
    intro r p
    have step :
        mapPages g (q :: ps) r = mapPages g ps (setPage r q (g (r q))) := rfl
    rw [step, ih]
    by_cases hpq : p = q
    · subst hpq
      by_cases hps : p ∈ ps
      · simp [hps, setPage, hg]
      · simp [hps, setPage]
    · by_cases hps : p ∈ ps
      · simp [hps, setPage, hpq]
      · simp [hps, setPage, hpq]

theorem upsertFun_idem (a : PDFAnnot) (l : List PDFAnnot) :
    ((l.filter (fun x => x.id ≠ a.id) ++ [a]).filter (fun x => x.id ≠ a.id)
        ++ [a]) =
      l.filter (fun x => x.id ≠ a.id) ++ [a] := by
  rw [List.filter_append]
  have h1 : ([a].filter (fun x => x.id ≠ a.id)) = ([] : List PDFAnnot) := by
    simp
  have h2 :
      (l.filter (fun x => x.id ≠ a.id)).filter (fun x => x.id ≠ a.id) =
        l.filter (fun x => x.id ≠ a.id) := by
    apply List.filter_eq_self.mpr
    intro x hx
    exact (List.mem_filter.mp hx).2
  rw [h1, h2, List.append_nil]

theorem updateFun_idem (t : PDFTarget) (l : List PDFAnnot) :
    ((l.map (fun a => if a.id = t.annot then { a with target := t } else a)).map
        (fun a => if a.id = t.annot then { a with target := t } else a)) =
      l.map (fun a => if a.id = t.annot then { a with target := t } else a) := by
  rw [List.map_map]
  apply List.map_congr_left
  intro a _
  by_cases h : a.id = t.annot
  · simp [Function.comp, h]
  · simp [Function.comp, h]

theorem upsert_apply (a : PDFAnnot) (r : Rendered) (p : Option Int) :
    upsertRenderedAnnot a r p =
      if p ∈ targetPages a.target
      then (r p).filter (fun x => x.id ≠ a.id) ++ [a]
      else r p :=
  mapPages_apply _ (upsertFun_idem a) _ r p

theorem update_apply (t : PDFTarget) (r : Rendered) (p : Option Int) :
    updateRenderedTarget t r p =
      if p ∈ targetPages t
      then (r p).map (fun a =>
        if a.id = t.annot then { a with target := t } else a)
      else r p :=
  mapPages_apply _ (updateFun_idem t) _ r p

theorem upsert_mem_id (a : PDFAnnot) (r : Rendered) (p : Option Int)
    (hp : p ∈ targetPages a.target) :
    ∃ b ∈ upsertRenderedAnnot a r p, b.id = a.id := by
  refine ⟨a, ?_, rfl⟩
  rw [upsert_apply, if_pos hp]
  exact List.mem_append_right _ (List.mem_singleton.mpr rfl)

theorem upsert_preserves_id (c : PDFAnnot) (r : Rendered) (p : Option Int)
    (i : String) (h : ∃ b ∈ r p, b.id = i) :
    ∃ b ∈ upsertRenderedAnnot c r p, b.id = i := by
  obtain ⟨b, hb, hbi⟩ := h
  rw [upsert_apply]
  by_cases hp : p ∈ targetPages c.target
  · rw [if_pos hp]
    by_cases hc : c.id = i
    · exact ⟨c, List.mem_append_right _ (List.mem_singleton.mpr rfl), hc⟩
    · refine ⟨b, List.mem_append_left _ ?_, hbi⟩
      refine List.mem_filter.mpr ⟨hb, ?_⟩
      simp only [decide_eq_true_eq]
      intro hbc
      exact hc (by rw [← hbc, hbi])
  · rw [if_neg hp]
    exact ⟨b, hb, hbi⟩

theorem foldl_upsert_preserves_id (l : List PDFAnnot) :
    ∀ (r : Rendered) (p : Option Int) (i : String),
      (∃ b ∈ r p, b.id = i) →
      ∃ b ∈ (l.foldl (fun acc a => upsertRenderedAnnot a acc) r) p, b.id = i := by
  induction l with
  | nil => intro r p i h; exact h
  | cons c l ih =>
    intro r p i h
    exact ih (upsertRenderedAnnot c r) p i (upsert_preserves_id c r p i h)

theorem foldl_upsert_mem_id (l : List PDFAnnot) :
    ∀ (r : Rendered) (a : PDFAnnot), a ∈ l →
      ∀ p ∈ targetPages a.target,
        ∃ b ∈ (l.foldl (fun acc x => upsertRenderedAnnot x acc) r) p,
          b.id = a.id := by
  induction l with
  | nil => intro r a ha; cases ha
  | cons c l ih =>
    intro r a ha p hp
    rcases List.mem_cons.mp ha with rfl | ha
    · exact foldl_upsert_preserves_id l (upsertRenderedAnnot a r) p a.id
        (upsert_mem_id a r p hp)
    · exact ih (upsertRenderedAnnot c r) a ha p hp

theorem foldl_append_eq (r : Rendered) (ps : List Int) :
    ∀ init : List PDFAnnot,
      ps.foldl (fun anns p => anns ++ r (some p)) init =
        init ++ ps.foldl (fun anns p => anns ++ r (some p)) [] := by
  induction ps with
  | nil => intro init; simp
  | cons q ps ih =>
    intro init
    have h1 : (q :: ps).foldl (fun anns p => anns ++ r (some p)) init =
        ps.foldl (fun anns p => anns ++ r (some p)) (init ++ r (some q)) := rfl
    have h2 : (q :: ps).foldl (fun anns p => anns ++ r (some p)) [] =
        ps.foldl (fun anns p => anns ++ r (some p)) ([] ++ r (some q)) := rfl
    rw [h1, h2, ih (init ++ r (some q)), ih ([] ++ r (some q))]
    simp

theorem lazyCollect_cons (r : Rendered) (q : Int) (ps : List Int) :
    (q :: ps).foldl (fun anns p => anns ++ r (some p)) [] =
      r (some q) ++ ps.foldl (fun anns p => anns ++ r (some p)) [] := by
  show ps.foldl _ ([] ++ r (some q)) = _
  rw [foldl_append_eq r ps ([] ++ r (some q))]
  simp

theorem lazyCollect_length (r : Rendered) (page : Int) :
    (lazyCollect r page).length =
      ((lazyPages page).map (fun p => (r (some p)).length)).sum := by
  unfold lazyCollect
  induction lazyPages page with
  | nil => rfl
  | cons q ps ih => rw [lazyCollect_cons]; simp [ih]

theorem foldl_append_congr (r₁ r₂ : Rendered) :
    ∀ ps : List Int, (∀ n ∈ ps, r₁ (some n) = r₂ (some n)) →
      ps.foldl (fun anns p => anns ++ r₁ (some p)) [] =
        ps.foldl (fun anns p => anns ++ r₂ (some p)) [] := by
  intro ps
  induction ps with
  | nil => intro h; rfl
  | cons q ps ih =>
    intro h
    rw [lazyCollect_cons r₁, lazyCollect_cons r₂,
      h q (List.mem_cons_self q ps),
      ih (fun n hn => h n (List.mem_cons_of_mem q hn))]

theorem lazyCollect_congr (r₁ r₂ : Rendered) (page : Int)
    (h : ∀ n ∈ lazyPages page, r₁ (some n) = r₂ (some n)) :
    lazyCollect r₁ page = lazyCollect r₂ page :=
  foldl_append_congr r₁ r₂ (lazyPages page) h

theorem upsertFun_unique (a : PDFAnnot) (l : List PDFAnnot)
    (hl : UniquePerId l) :
    UniquePerId (l.filter (fun x => x.id ≠ a.id) ++ [a]) := by
  rw [UniquePerId, List.pairwise_append]
  refine ⟨List.Pairwise.sublist (List.filter_sublist l) hl, ?_, ?_⟩
  · exact List.pairwise_singleton _ a
  · intro x hx b hb
    rw [List.mem_singleton] at hb
    subst hb
    have := (List.mem_filter.mp hx).2
    simpa using this

theorem updateFun_unique (t : PDFTarget) (l : List PDFAnnot)
    (hl : UniquePerId l) :
    UniquePerId (l.map (fun a =>
      if a.id = t.annot then { a with target := t } else a)) := by
  rw [UniquePerId, List.pairwise_map]
  have hid : ∀ a : PDFAnnot,
      (if a.id = t.annot then { a with target := t } else a).id = a.id := by
    intro a; by_cases h : a.id = t.annot <;> simp [h]
  refine hl.imp ?_
  intro a b hab
  rw [hid a, hid b]
  exact hab

theorem upsert_unique (a : PDFAnnot) (r : Rendered)
    (hr : IndexUnique r) : IndexUnique (upsertRenderedAnnot a r) := by
  intro p
  rw [upsert_apply]
  by_cases hp : p ∈ targetPages a.target
  · rw [if_pos hp]; exact upsertFun_unique a (r p) (hr p)
  · rw [if_neg hp]; exact hr p

theorem update_unique (t : PDFTarget) (r : Rendered)
    (hr : IndexUnique r) : IndexUnique (updateRenderedTarget t r) := by
  intro p
  rw [update_apply]
  by_cases hp : p ∈ targetPages t
  · rw [if_pos hp]; exact updateFun_unique t (r p) (hr p)
  · rw [if_neg hp]; exact hr p

theorem foldl_upsert_unique (l : List PDFAnnot) :
    ∀ r : Rendered, IndexUnique r →
      IndexUnique (l.foldl (fun acc a => upsertRenderedAnnot a acc) r) := by
  induction l with
  | nil => intro r hr; exact hr
  | cons c l ih =>
    intro r hr
    exact ih (upsertRenderedAnnot c r) (upsert_unique c r hr)

theorem reviveSelector_idem (doc : DocView) (s : PDFSelector) :
    reviveSelector doc (reviveSelector doc s) = reviveSelector doc s := by
  obtain ⟨pn, orf, q⟩ := s
  rcases orf with _ | rv
  · rcases pn with _ | p
    · rfl
    · rcases hdoc : doc p with _ | e <;>
        simp [reviveSelector, reviveSelectorW, hdoc]
  · rcases rv with _ | e
    · rcases pn with _ | p
      · rfl
      · rcases hdoc : doc p with _ | e <;>
          simp [reviveSelector, reviveSelectorW, hdoc]
    · rcases pn with _ | p
      · rfl
      · rfl

theorem reviveTarget_idem (doc : DocView) (t : PDFTarget) :
    reviveTarget doc (reviveTarget doc t) = reviveTarget doc t := by
  obtain ⟨an, sel⟩ := t
  simp only [reviveTarget, List.map_map]
  congr 1
  apply List.map_congr_left
  intro s _
  simp only [Function.comp_apply]
  exact reviveSelector_idem doc s

theorem revive_idem (doc : DocView) (a : PDFAnnot) :
    revive doc (revive doc a) = revive doc a := by
  obtain ⟨i, t⟩ := a
  simp only [revive]
  congr 1
  exact reviveTarget_idem doc t

/-!
Claim theorems.
-/

/-- Claim C4 (confirmed): under a fixed document view, reviving is
idempotent at every level — selector, target and annotation: applying
the reviver twice equals applying it once, so reviving an
already-revived value returns an equal value. -/
theorem claim_c4 (doc : DocView) :
    (∀ s : PDFSelector,
      reviveSelector doc (reviveSelector doc s) = reviveSelector doc s) ∧
    (∀ t : PDFTarget,
      reviveTarget doc (reviveTarget doc t) = reviveTarget doc t) ∧
    (∀ a : PDFAnnot, revive doc (revive doc a) = revive doc a) :=
  ⟨reviveSelector_idem doc, reviveTarget_idem doc, revive_idem doc⟩

/-- Claim C9 (confirmed): a selector carrying neither a page number nor
an element reference (the `offsetReference` field absent or holding a
non-element) makes `reviveSelector` log the data-integrity warning (the
`true` flag, the source's `console.warn`) and return the selector
unmodified, preserving its remaining payload; the function is total, so
it never throws. -/
theorem claim_c9 (doc : DocView) (s : PDFSelector)
    (hpn : s.pageNumber = none)
    (href : s.offsetReference = none ∨
      s.offsetReference = some RefVal.nullRef) :
    reviveSelectorW doc s = (s, true) := by
  obtain ⟨pn, orf, q⟩ := s
  cases hpn
  rcases href with h | h <;> cases h <;> rfl

/-- Witness for C9 at the concrete malformed selector `sEmptySel`. -/
theorem claim_c9_witness :
    reviveSelectorW doc0 sEmptySel = (sEmptySel, true) :=
  claim_c9 doc0 sEmptySel rfl (Or.inl rfl)

/-- Counterexample to C3: `reviveSelector` does not verify that an
element reference is connected.  `sStale` carries page number 3 and a
disconnected element; the claim says reviving discards the stale
reference and behaves like the page-number-only selector `sPageOnly`
(which picks up the freshly rendered `eFresh`).  Instead the source
returns `sStale` unchanged, stale reference included, differing from
the page-number path. -/
theorem claim_c3_cex :
    eStale.connected = false ∧
    reviveSelector docC3 sStale = sStale ∧
    reviveSelector docC3 sStale ≠ reviveSelector docC3 sPageOnly := by
  refine ⟨rfl, rfl, ?_⟩
  decide

/-- Claim C3 (amended): reviving treats any `offsetReference` that is an
`HTMLElement` instance as valid without checking connectedness: with a
page number present the selector is returned unchanged (a stale
reference is kept, no fallback to the page-number path occurs), and
with no page number the page is read off the possibly-stale element.
Only selectors whose `offsetReference` is absent or not an element take
the page-number path. -/
theorem claim_c3 (doc : DocView) (s : PDFSelector) (e : Elem)
    (href : s.offsetReference = some ( RefVal.elem e)) :
    (s.pageNumber.isSome = true → reviveSelector doc s = s) ∧
    (s.pageNumber = none →
      reviveSelector doc s = { s with pageNumber := some e.dataPageNumber }) := by
  obtain ⟨pn, orf, q⟩ := s
  cases href
  constructor
  · intro h
    rcases pn with _ | p
    · simp at h
    · rfl
  · intro h
    cases h
    rfl

/-- Witness for C3 (amended) at the concrete stale selector. -/
theorem claim_c3_witness :
    reviveSelector docC3 sStale = sStale :=
  (claim_c3 docC3 sStale eStale rfl).1 rfl

/-- Counterexample to C1: ids not found in the store are not discarded
from the resync batch.  `rStale` indexes annotation id `"a"` under page
0 while `getAnnotation` resolves nothing; the claim says such ids are
dropped (leaving an empty batch and no store call), but the source
calls `bulkUpsertAnnotations` with the batch `[undefined]`. -/
theorem claim_c1_cex :
    onLazyRenderBatch (fun _ => none) rStale 0 = some [none] := by decide

/-- Claim C1 (amended): `onLazyRender` re-fetches every collected id via
`getAnnotation` and keeps all results in the batch — a not-found id
contributes an `undefined` (`none`) entry instead of being discarded:
the batch is exactly the map of `getAnnotation` over the collected
annotations, every collected annotation's fetch result is in the batch,
and the batch contains a `none` entry precisely when some collected id
fails to resolve. -/
theorem claim_c1 (get : String → Option PDFAnnot) (r : Rendered)
    (page : Int) (batch : List (Option PDFAnnot))
    (h : onLazyRenderBatch get r page = some batch) :
    batch = (lazyCollect r page).map (fun a => get a.id) ∧
    (∀ a ∈ lazyCollect r page, get a.id ∈ batch) ∧
    ((∃ o ∈ batch, o = none) ↔ ∃ a ∈ lazyCollect r page, get a.id = none) := by
  have hb : batch = lazyToRender get r page := by
    unfold onLazyRenderBatch at h
    split at h
    · exact (Option.some_inj.mp h).symm
    · cases h
  subst hb
  refine ⟨rfl, ?_, ?_⟩
  · intro a ha
    exact List.mem_map_of_mem _ ha
  · constructor
    · rintro ⟨o, ho, rfl⟩
      obtain ⟨a, ha, hao⟩ := List.mem_map.mp ho
      exact ⟨a, ha, hao⟩
    · rintro ⟨a, ha, hna⟩
      exact ⟨none, by rw [← hna]; exact List.mem_map_of_mem _ ha, rfl⟩

/-- Witness for C1 (amended) on the concrete stale index: the batch
`[none]` is the map of the (empty) store lookup over the collected
annotations. -/
theorem claim_c1_witness :
    [(none : Option PDFAnnot)] = (lazyCollect rStale 0).map (fun _ => none) :=
  (claim_c1 (fun _ => none) rStale 0 [none] (by decide)).1

/-- Counterexample to C2: the batch is not deduplicated by id.  The
two-page annotation `aMulti` (pages 0 and 1) is indexed under both
pages; `onLazyRender(0)`'s neighborhood covers both, and the batch
contains the annotation twice, not at most once. -/
theorem claim_c2_cex :
    onLazyRenderBatch getM rMulti 0 = some [some aMulti, some aMulti] := by
  decide

/-- Claim C2 (amended): the batch is the per-page index lists of the
neighborhood concatenated in page order with no cross-page
deduplication: its length is the sum of the neighborhood pages' list
lengths, so an annotation indexed under k pages of the neighborhood
contributes k entries (each being the store's fetch result for its id,
so duplicates carry identical store state rather than a last-seen
index target). -/
theorem claim_c2 (get : String → Option PDFAnnot) (r : Rendered)
    (page : Int) :
    (lazyToRender get r page).length =
      ((lazyPages page).map (fun p => (r (some p)).length)).sum := by
  unfold lazyToRender
  rw [List.length_map]
  exact lazyCollect_length r page

/-- Claim C7 (confirmed): `onLazyRender` consults the index for exactly
the neighborhood {page-2, page-1, page, page+1, page+2} intersected
with the non-negative integers: `lazyPages 5 = [3,4,5,6,7]`,
`lazyPages 0 = [0,1,2]`, membership in `lazyPages` is exactly that
intersection, and the batch depends only on the index entries of those
pages. -/
theorem claim_c7 :
    lazyPages 5 = [3, 4, 5, 6, 7] ∧
    lazyPages 0 = [0, 1, 2] ∧
    (∀ page n : Int, n ∈ lazyPages page ↔
      ((n = page - 2 ∨ n = page - 1 ∨ n = page ∨ n = page + 1 ∨
        n = page + 2) ∧ 0 ≤ n)) ∧
    (∀ (get : String → Option PDFAnnot) (r₁ r₂ : Rendered) (page : Int),
      (∀ n ∈ lazyPages page, r₁ (some n) = r₂ (some n)) →
      onLazyRenderBatch get r₁ page = onLazyRenderBatch get r₂ page) := by
  refine ⟨by decide, by decide, ?_, ?_⟩
  · intro page n
    simp [lazyPages, List.mem_filter]
  · intro get r₁ r₂ page h
    unfold onLazyRenderBatch lazyToRender
    rw [lazyCollect_congr r₁ r₂ page h]

/-- Witness for C7: an index entry on page 50 is outside the page-0
neighborhood, so the batch is the same as for the empty index. -/
theorem claim_c7_witness :
    onLazyRenderBatch (fun _ => none) rFar 0 =
      onLazyRenderBatch (fun _ => none) emptyRendered 0 := by
  apply claim_c7.2.2.2
  intro n hn
  have h0 : lazyPages 0 = [0, 1, 2] := by decide
  rw [h0] at hn
  fin_cases hn <;> rfl

/-- Counterexample to C5: `onLazyRender` does not correct the page
index against the store.  The store holds `aNew` (id `"a"`, now on page
5 only) while the index holds the stale `aOld` under page 0; after
`onLazyRender(0)` completes, the page-0 entry still is the uncorrected
`[aOld]`. -/
theorem claim_c5_cex :
    WrappedStore.getAnnot SListStore "a" [aNew] = some aNew ∧
    targetPages aNew.target = [some 5] ∧
    (pdf_onLazyRender SListStore 0 ([aNew], rStale)).2 (some 0) = [aOld] ∧
    aOld ≠ aNew := by
  refine ⟨rfl, rfl, rfl, ?_⟩
  decide

/-- Claim C5 (amended): `onLazyRender` never writes the page index: the
resync re-fetches authoritative annotations from the wrapped store to
build the batch, but the `rendered` index itself is not rebuilt or
corrected — it is left exactly as it was, stale entries included. -/
theorem claim_c5 {σ : Type} (S : WrappedStore σ) (page : Int)
    (sr : σ × Rendered) :
    (pdf_onLazyRender S page sr).2 = sr.2 := by
  unfold pdf_onLazyRender
  split <;> rfl

/-- Claim C6 (confirmed): intercepted `bulkAddAnnotation` revives every
annotation, delegates the revived list to the wrapped store, returns
the store's rejected list unchanged, and records every revived
annotation in the page index under every page its revived target
touches — with no condition on the store's per-item outcome, i.e. also
for rejected items. -/
theorem claim_c6 {σ : Type} (doc : DocView) (S : WrappedStore σ)
    (anns : List PDFAnnot) (replace : Bool) (origin : Origin)
    (st : σ) (r : Rendered) :
    (pdf_bulkAddAnnot doc S anns replace origin (st, r)).1 =
      (WrappedStore.bulkAddAnnot S (anns.map (revive doc)) replace origin
        st).1 ∧
    (pdf_bulkAddAnnot doc S anns replace origin (st, r)).2.1 =
      (WrappedStore.bulkAddAnnot S (anns.map (revive doc)) replace origin
        st).2 ∧
    (∀ a ∈ anns, ∀ p ∈ targetPages (revive doc a).target,
      ∃ b ∈ (pdf_bulkAddAnnot doc S anns replace origin (st, r)).2.2 p,
        b.id = (revive doc a).id) := by
  refine ⟨rfl, rfl, ?_⟩
  intro a ha p hp
  have hmem : revive doc a ∈ anns.map (revive doc) :=
    List.mem_map_of_mem _ ha
  exact foldl_upsert_mem_id (anns.map (revive doc)) r (revive doc a) hmem p hp

/-- Witness for C6: bulk-adding `aOld` through the trivial store (which
rejects nothing) indexes it under page 0. -/
theorem claim_c6_witness :
    ∃ b ∈ (pdf_bulkAddAnnot doc0 SUnit [aOld] true Origin.LOCAL
        ((), emptyRendered)).2.2 (some 0),
      b.id = (revive doc0 aOld).id :=
  (claim_c6 doc0 SUnit [aOld] true Origin.LOCAL () emptyRendered).2.2 aOld
    (List.mem_singleton.mpr rfl) (some 0) (by decide)

/-- Claim C8 (confirmed): intercepted `updateTarget`, under each page
touched by the revived target, maps the page's entries in place: the
entry whose id is the target's owning-annotation id gets the revived
target swapped in and every other entry is unchanged; pages the revived
target does not touch are untouched, and a touched page holding no
entry with that id is left entirely unchanged (no insertion). -/
theorem claim_c8 {σ : Type} (doc : DocView) (S : WrappedStore σ)
    (t : PDFTarget) (origin : Origin) (st : σ) (r : Rendered) :
    (∀ p ∈ targetPages (reviveTarget doc t),
      (pdf_updateTarget doc S t origin (st, r)).2 p =
        (r p).map (fun a =>
          if a.id = (reviveTarget doc t).annot
          then { a with target := reviveTarget doc t } else a)) ∧
    (∀ p, p ∉ targetPages (reviveTarget doc t) →
      (pdf_updateTarget doc S t origin (st, r)).2 p = r p) ∧
    (∀ p, (∀ a ∈ r p, a.id ≠ (reviveTarget doc t).annot) →
      (pdf_updateTarget doc S t origin (st, r)).2 p = r p) := by
  have key : ∀ p, (pdf_updateTarget doc S t origin (st, r)).2 p =
      if p ∈ targetPages (reviveTarget doc t)
      then (r p).map (fun a =>
        if a.id = (reviveTarget doc t).annot
        then { a with target := reviveTarget doc t } else a)
      else r p := fun p => update_apply (reviveTarget doc t) r p
  refine ⟨?_, ?_, ?_⟩
  · intro p hp
    rw [key p, if_pos hp]
  · intro p hp
    rw [key p, if_neg hp]
  · intro p hid
    rw [key p]
    by_cases hp : p ∈ targetPages (reviveTarget doc t)
    · rw [if_pos hp]
      have hfix : ∀ a ∈ r p,
          (if a.id = (reviveTarget doc t).annot
          then { a with target := reviveTarget doc t } else a) = a := by
        intro a ha
        rw [if_neg (hid a ha)]
      have := List.map_congr_left hfix
      simpa using this
    · rw [if_neg hp]

/-- Witness for C8 on a concrete index: updating target `tOld`
(id `"a"`, page 0) maps the page-0 entry in place. -/
theorem claim_c8_witness :
    (pdf_updateTarget doc0 SUnit tOld Origin.LOCAL ((), rStale)).2 (some 0) =
      (rStale (some 0)).map (fun a =>
        if a.id = (reviveTarget doc0 tOld).annot
        then { a with target := reviveTarget doc0 tOld } else a) :=
  (claim_c8 doc0 SUnit tOld Origin.LOCAL () rStale).1 (some 0) (by decide)

/-- Claim C10 (confirmed): each page's index list holds at most one
entry per annotation id — true of the empty initial index and preserved
by every intercepted operation (`addAnnotation`, `bulkAddAnnotation`,
`updateAnnotation`, `updateTarget`): the upsert filters out any prior
entry with the same id before appending, and the target update maps
entries in place without adding any. -/
theorem claim_c10 :
    IndexUnique emptyRendered ∧
    (∀ (σ : Type) (doc : DocView) (S : WrappedStore σ) (a : PDFAnnot)
        (origin : Origin) (st : σ) (r : Rendered), IndexUnique r →
      IndexUnique (pdf_addAnnot doc S a origin (st, r)).2.2) ∧
    (∀ (σ : Type) (doc : DocView) (S : WrappedStore σ) (anns : List PDFAnnot)
        (replace : Bool) (origin : Origin) (st : σ) (r : Rendered),
      IndexUnique r →
      IndexUnique (pdf_bulkAddAnnot doc S anns replace origin (st, r)).2.2) ∧
    (∀ (σ : Type) (doc : DocView) (S : WrappedStore σ) (a : PDFAnnot)
        (origin : Origin) (st : σ) (r : Rendered), IndexUnique r →
      IndexUnique (pdf_updateAnnot doc S a origin (st, r)).2) ∧
    (∀ (σ : Type) (doc : DocView) (S : WrappedStore σ) (t : PDFTarget)
        (origin : Origin) (st : σ) (r : Rendered), IndexUnique r →
      IndexUnique (pdf_updateTarget doc S t origin (st, r)).2) := by
  refine ⟨?_, ?_, ?_, ?_, ?_⟩
  · intro p
    exact List.Pairwise.nil
  · intro σ doc S a origin st r hr
    exact upsert_unique (revive doc a) r hr
  · intro σ doc S anns replace origin st r hr
    exact foldl_upsert_unique (anns.map (revive doc)) r hr
  · intro σ doc S a origin st r hr
    exact upsert_unique (revive doc a) r hr
  · intro σ doc S t origin st r hr
    exact update_unique (reviveTarget doc t) r hr

/-- Witness for C10: adding `aOld` to the empty index through the
trivial store preserves the per-id uniqueness invariant. -/
theorem claim_c10_witness :
    IndexUnique
      (pdf_addAnnot doc0 SUnit aOld Origin.LOCAL ((), emptyRendered)).2.2 :=
  claim_c10.2.1 Unit doc0 SUnit aOld Origin.LOCAL () emptyRendered
    (fun _ => List.Pairwise.nil)
